import Mathlib

/-!
Verification development for the NuttX ICMPv6 sendto path
(net/icmpv6/icmpv6_sendto.c): the packet builder `sendto_request`,
the timeout policy `sendto_timeout`, the poll-loop event dispatcher
`sendto_eventhandler`, and the public entry point `icmpv6_sendto`,
shallowly embedded as executable Lean functions.  Machine integers are
modelled as `Nat`/`Int` with explicit truncation where the C code
truncates; buffers are lists of byte values; the per-call concurrency
(the poll loop invoking the registered callback while the caller is
parked on the semaphore) is modelled by an explicit list of dispatcher
invocations threaded through `runEvents`.
-/

namespace NuttxIcmpv6

/-! ## Protocol and platform constants

Values of constants that live in NuttX headers outside the extracted
source (sizes, protocol numbers, errno values, event-flag bits).  The
event-flag bits are modelled as distinct powers of two, faithful to
their use as a bitmask. -/

def IPv6_HDRLEN : Nat := 40

def ICMPv6_HDRLEN : Nat := 4

/-- Size of struct sockaddr_in6, modelled as a named constant. -/
def SIZEOF_SOCKADDR_IN6 : Nat := 28

def ICMPv6_ECHO_REQUEST : Nat := 128

def IP_PROTO_ICMP6 : Nat := 58

def NETDEV_DOWN : Nat := 1

def ICMPv6_NEWDATA : Nat := 2

def ICMPv6_POLL : Nat := 4

def IFF_IPv6 : Nat := 16

def OKK : Int := 0

def EINVAL : Int := 22

def ENOMEM : Int := 12

def EINTR : Int := 4

def ENETUNREACH : Int := 101

def ETIMEDOUT : Int := 110

/-! ## Ones-complement checksum

Modelled from the spec: the checksum primitive `icmpv6_chksum` is a
consumed external service (net/icmpv6/icmpv6_chksum.c is not part of
the extracted source).  Per the spec glossary it is a 16-bit additive
checksum with end-around carry over the ICMPv6 header and payload
(the source comment at the call site reads: calculate the ICMPv6
checksum over the ICMPv6 header and payload).  Bytes are paired into
big-endian 16-bit words, an odd trailing byte is padded with zero. -/

/-- Add two 16-bit quantities with end-around carry folded back in.
For inputs below 2^16 the single fold keeps the result below 2^16. -/
def ocAdd (a b : Nat) : Nat :=
  let s := a + b
  s % 65536 + s / 65536

/-- Pair a byte list into big-endian 16-bit words, zero-padding an odd
trailing byte. -/
def chkWords : List Nat → List Nat
  | [] => []
  | [b] => [b * 256]
  | b0 :: b1 :: rest => (b0 * 256 + b1) :: chkWords rest

/-- Modelled from the spec: ones-complement checksum of a byte region
(end-around-carry sum of its big-endian 16-bit words). -/
def icmpv6_chksum (region : List Nat) : Nat :=
  (chkWords region).foldl ocAdd 0

/-- Bitwise complement on a 16-bit value (the C expression is the
operator tilde applied to a uint16 result). -/
def complement16 (a : Nat) : Nat := 65535 - a

/-- Write a 16-bit value into the checksum field of an ICMPv6 header
region: bytes 2 (high) and 3 (low).  Regions shorter than the 4-byte
ICMPv6 header (never produced by the code paths under verification,
which check the minimum header length first) are left unchanged. -/
def setChksum (l : List Nat) (v : Nat) : List Nat :=
  match l with
  | b0 :: b1 :: _ :: _ :: rest => b0 :: b1 :: (v / 256) :: (v % 256) :: rest
  | l => l

/-- Read the 16-bit checksum field of an ICMPv6 header region. -/
def chksumField (l : List Nat) : Nat :=
  l.getD 2 0 * 256 + l.getD 3 0

/-! ## Data model -/

/-- Fields of the IPv6 header that `sendto_request` writes into the
device transmit buffer (struct ipv6_hdr_s).  Addresses are lists of
eight 16-bit words. -/
structure Ipv6Hdr where
  vtc : Nat
  tcf : Nat
  flow : Nat
  len0 : Nat
  len1 : Nat
  proto : Nat
  ttl : Nat
  srcipaddr : List Nat
  destipaddr : List Nat
deriving Repr, DecidableEq

/-- The slice of struct net_driver_s used by this code: identity (for
pointer comparison against the connection), interface flags, frame and
pending-send lengths, configured address and netmask, and the transmit
buffer region split into the IPv6 header and the ICMPv6 region that
follows it. -/
structure NetDriver where
  devId : Nat
  d_flags : Nat
  d_len : Nat
  d_sndlen : Int
  d_ipv6addr : List Nat
  d_ipv6netmask : List Nat
  ipv6hdr : Ipv6Hdr
  icmpRegion : List Nat
deriving Repr, DecidableEq

/-- The slice of struct devif_callback_s owned by one sendto call:
the interest mask and whether the priv / event pointers are set. -/
structure DevifCallback where
  flags : Nat
  privSet : Bool
  eventSet : Bool
deriving Repr, DecidableEq

/-- The slice of struct socket read by this code (s_sndtimeo, the
configured send timeout in ticks; 0 means disabled). -/
structure Socket where
  s_sndtimeo : Nat
deriving Repr, DecidableEq

/-- Struct icmpv6_sendto_s: the ephemeral per-call state.  The wake
semaphore is modelled by `semPosts`, the count of posts performed on
it; `snd_buf` holds the caller bytes, `snd_buflen` the uint16 length. -/
structure icmpv6_sendto_s where
  snd_cb : DevifCallback
  snd_sock : Option Socket
  snd_time : Nat
  snd_toaddr : List Nat
  snd_buf : List Nat
  snd_buflen : Nat
  snd_result : Int
  semPosts : Nat
deriving Repr, DecidableEq

/-- Struct icmpv6_conn_s: the long-lived echo session of a connection.
The read-ahead queue content is a list; `flushes` counts how many times
`iob_free_queue` has been applied to it. -/
structure icmpv6_conn_s where
  id : Nat
  nreqs : Nat
  dev : Option Nat
  readahead : List Nat
  flushes : Nat
deriving Repr, DecidableEq

/-- Flush the read-ahead queue of a connection (iob_free_queue on
conn->readahead), counting the flush. -/
def iob_free_queue (conn : icmpv6_conn_s) : icmpv6_conn_s :=
  { conn with readahead := [], flushes := conn.flushes + 1 }

/-! ## Timeout policy -/

/-- Modelled from the spec: net_timeo (net/utils/net_timeo.c, not in
the extracted source) reports whether the elapsed ticks since the start
timestamp reach or exceed the configured timeout (inclusive bound). -/
def net_timeo (start_time timeo now : Nat) : Bool :=
  timeo ≤ now - start_time

/-- Sendto_timeout: if the socket is present and a send timeout is
configured (nonzero), check whether it has elapsed; otherwise never
time out.  The current clock value is passed explicitly. -/
def sendto_timeout (pstate : icmpv6_sendto_s) (now : Nat) : Bool :=
  match pstate.snd_sock with
  | some psock =>
      if psock.s_sndtimeo ≠ 0 then net_timeo pstate.snd_time psock.s_sndtimeo now
      else false
  | none => false

/-- Modelled from the spec: net_ipv6addr_maskcmp (a macro outside the
extracted source) compares two addresses word by word under a netmask. -/
def net_ipv6addr_maskcmp (addr1 addr2 mask : List Nat) : Bool :=
  ((addr1.zip addr2).zip mask).all fun p => p.1.1 &&& p.2 == p.1.2 &&& p.2

/-! ## Packet builder -/

/-- Sendto_request: build the outgoing ICMPv6 packet in the device
transmit buffer.  Sets the IPv6 interface flag, the frame length and
pending-send length, fills the IPv6 header fields, copies snd_buflen
caller bytes after the header, then zeroes the checksum field, stores
the complemented checksum and substitutes 0xffff for a computed zero. -/
def sendto_request (dev : NetDriver) (pstate : icmpv6_sendto_s) : NetDriver :=
  let hdr : Ipv6Hdr :=
    { vtc := 0x60
      tcf := 0
      flow := 0
      len0 := pstate.snd_buflen / 256
      len1 := pstate.snd_buflen % 256
      proto := IP_PROTO_ICMP6
      ttl := 255
      srcipaddr := dev.d_ipv6addr
      destipaddr := pstate.snd_toaddr }
  let region0 := pstate.snd_buf.take pstate.snd_buflen
  let region1 := setChksum region0 0
  let c0 := complement16 (icmpv6_chksum region1)
  let c1 := if c0 = 0 then 0xffff else c0
  { dev with
      d_flags := dev.d_flags ||| IFF_IPv6
      d_len := IPv6_HDRLEN + pstate.snd_buflen
      d_sndlen := dev.d_sndlen + pstate.snd_buflen
      ipv6hdr := hdr
      icmpRegion := setChksum region1 c1 }

/-! ## Event dispatcher -/

/-- End_wait: clear the callback fields (flags, priv, event) so no
further invocation can occur, then post the wake semaphore once. -/
def end_wait (pstate : icmpv6_sendto_s) : icmpv6_sendto_s :=
  { pstate with
      snd_cb := { flags := 0, privSet := false, eventSet := false }
      semPosts := pstate.semPosts + 1 }

/-- Sendto_eventhandler: the dispatcher invoked by each poll cycle.
Receives the device, the private state pointer (none models NULL), the
event flags and the current clock; returns the possibly updated device
and state together with the returned flags. -/
def sendto_eventhandler (dev : NetDriver) (pvpriv : Option icmpv6_sendto_s)
    (flags : Nat) (now : Nat) :
    NetDriver × Option icmpv6_sendto_s × Nat :=
  match pvpriv with
  | none => (dev, none, flags)
  | some pstate =>
      if flags &&& NETDEV_DOWN ≠ 0 then
        (dev, some (end_wait { pstate with snd_result := -ENETUNREACH }), flags)
      else if dev.d_sndlen ≤ 0 ∧ flags &&& ICMPv6_NEWDATA = 0 then
        let dev2 := sendto_request dev pstate
        (dev2, some (end_wait { pstate with snd_result := OKK }), flags)
      else if sendto_timeout pstate now then
        let failcode : Int :=
          if !net_ipv6addr_maskcmp pstate.snd_toaddr dev.d_ipv6addr dev.d_ipv6netmask
          then -ENETUNREACH else -ETIMEDOUT
        (dev, some (end_wait { pstate with snd_result := failcode }), flags)
      else
        (dev, some pstate, flags)

/-- Modelled from the spec: the device poll loop (devif_conn_event)
invokes a registered callback when its event pointer is set and the
delivered flags intersect its interest mask, passing its priv pointer. -/
def devif_conn_event (dev : NetDriver) (st : icmpv6_sendto_s)
    (flags : Nat) (now : Nat) : NetDriver × icmpv6_sendto_s :=
  if st.snd_cb.eventSet ∧ flags &&& st.snd_cb.flags ≠ 0 then
    match sendto_eventhandler dev (if st.snd_cb.privSet then some st else none) flags now with
    | (dev2, some st2, _) => (dev2, st2)
    | (dev2, none, _) => (dev2, st)
  else (dev, st)

/-- Run a sequence of poll-loop invocations, each given by its event
flags and the clock value at which it occurs, threading the device and
the per-call state. -/
def runEvents (evs : List (Nat × Nat)) (dev : NetDriver)
    (st : icmpv6_sendto_s) : NetDriver × icmpv6_sendto_s :=
  match evs with
  | [] => (dev, st)
  | (fl, now) :: rest =>
      let p := devif_conn_event dev st fl now
      runEvents rest p.1 p.2

/-! ## Orchestrator -/

/-- Read the type field (byte 0) of the caller buffer, viewed as a
struct icmpv6_echo_request_s. -/
def echoType (buf : List Nat) : Nat := buf.getD 0 0

/-- Read the 16-bit id field (bytes 4 and 5) of the caller buffer,
viewed as a struct icmpv6_echo_request_s.  The field is only ever
compared and stored, so a fixed consistent byte order suffices. -/
def echoId (buf : List Nat) : Nat := buf.getD 4 0 * 256 + buf.getD 5 0

/-- Environment of one icmpv6_sendto call: results of the consumed
services (device lookup, neighbor resolution, callback allocation),
the start clock value, and the sequence of poll-loop invocations that
occur while the caller is parked on the semaphore.  An empty or
never-resolving sequence models a premature wake by a signal. -/
structure Oracle where
  devFound : Option NetDriver
  neighborOk : Bool
  cbAllocOk : Bool
  startTime : Nat
  events : List (Nat × Nat)
deriving Repr, DecidableEq

/-- Observable outcome of an icmpv6_sendto call: the returned value
and the final state of the connection's echo session. -/
structure SendtoOutcome where
  ret : Int
  conn : icmpv6_conn_s
deriving Repr, DecidableEq

/-- Errout label of icmpv6_sendto: reset the echo session to empty,
flush the read-ahead queue and return the error code. -/
def sendto_errout (conn : icmpv6_conn_s) (ret : Int) : SendtoOutcome :=
  { ret := ret
    conn := iob_free_queue { conn with id := 0, nreqs := 0, dev := none } }

/-- Per-call state right after successful callback allocation and
registration: interest in poll and device-down events, priv and event
set, result pre-seeded with the interrupted sentinel (equal to the
record update the source performs on the stack-allocated state). -/
def sendto_state1 (psock : Socket) (buf toAddr : List Nat) (len : Nat)
    (o : Oracle) : icmpv6_sendto_s :=
  { snd_cb := { flags := ICMPv6_POLL ||| NETDEV_DOWN, privSet := true, eventSet := true }
    snd_sock := some psock
    snd_time := o.startTime
    snd_toaddr := toAddr
    snd_buf := buf
    snd_buflen := len % 65536
    snd_result := -EINTR
    semPosts := 0 }

/-- Session reconciliation (lines before the neighbor check): on any
change of request kind, identifier or device, reset the session to
empty and flush the read-ahead queue. -/
def sendto_reconcile (conn : icmpv6_conn_s) (buf : List Nat)
    (dev : NetDriver) : icmpv6_conn_s :=
  if echoType buf ≠ ICMPv6_ECHO_REQUEST ∨ echoId buf ≠ conn.id ∨
      some dev.devId ≠ conn.dev then
    iob_free_queue { conn with id := 0, nreqs := 0, dev := none }
  else conn

/-- Session recording inside the allocation-success branch: store the
identifier and the fixed in-flight count of one for an echo request,
then record the target device regardless of request kind. -/
def sendto_record_session (conn : icmpv6_conn_s) (buf : List Nat)
    (dev : NetDriver) : icmpv6_conn_s :=
  let conn2 :=
    if echoType buf = ICMPv6_ECHO_REQUEST then
      { conn with id := echoId buf, nreqs := 1 }
    else conn
  { conn2 with dev := some dev.devId }

/-- Icmpv6_sendto: validate arguments, look up the route device,
reconcile the echo session (flushing the read-ahead queue on any
change of request kind, id or device), perform neighbor resolution,
allocate and register the callback (pre-seeding the result with the
interrupted sentinel), record the session id and device, run the poll
loop until woken, and translate the ephemeral result.  The uint16
field snd_buflen truncates the size_t length. -/
def icmpv6_sendto (psock : Socket) (conn : icmpv6_conn_s) (buf : List Nat)
    (len : Nat) (toAddr : List Nat) (tolen : Nat) (o : Oracle) : SendtoOutcome :=
  if len < ICMPv6_HDRLEN ∨ tolen < SIZEOF_SOCKADDR_IN6 then
    { ret := -EINVAL, conn := conn }
  else
    match o.devFound with
    | none => sendto_errout conn (-ENETUNREACH)
    | some dev =>
        let conn1 := sendto_reconcile conn buf dev
        if !o.neighborOk then sendto_errout conn1 (-ENETUNREACH)
        else
          let state : icmpv6_sendto_s :=
            { snd_cb := { flags := 0, privSet := false, eventSet := false }
              snd_sock := some psock
              snd_time := o.startTime
              snd_toaddr := toAddr
              snd_buf := buf
              snd_buflen := len % 65536
              snd_result := -ENOMEM
              semPosts := 0 }
          let step :=
            if o.cbAllocOk then
              let state1 := sendto_state1 psock buf toAddr len o
              let conn3 := sendto_record_session conn1 buf dev
              let r := runEvents o.events dev state1
              (r.2, conn3)
            else (state, conn1)
          if step.1.snd_result < 0 then sendto_errout step.2 step.1.snd_result
          else { ret := (len : Int), conn := step.2 }

/-! ## Dispatcher lemmas -/

/-- Callback state after deregistration: interest mask, priv and event
all cleared. -/
def clearedCb : DevifCallback := { flags := 0, privSet := false, eventSet := false }

/-- Zeroed IPv6 header, used for sample transmit buffers. -/
def hdr0 : Ipv6Hdr :=
  { vtc := 0, tcf := 0, flow := 0, len0 := 0, len1 := 0, proto := 0, ttl := 0,
    srcipaddr := [], destipaddr := [] }

/-- Sample device: link-local source address, empty transmit buffer. -/
def devA : NetDriver :=
  { devId := 1, d_flags := 0, d_len := 0, d_sndlen := 0
    d_ipv6addr := [0xfe80, 0, 0, 0, 0, 0, 0, 1]
    d_ipv6netmask := [0xffff, 0xffff, 0xffff, 0xffff, 0, 0, 0, 0]
    ipv6hdr := hdr0, icmpRegion := [] }

/-- Sample registered per-call state: echo request header of 4 bytes,
timeout disabled, result pre-seeded to the interrupted sentinel. -/
def stA : icmpv6_sendto_s :=
  { snd_cb := { flags := ICMPv6_POLL ||| NETDEV_DOWN, privSet := true, eventSet := true }
    snd_sock := some { s_sndtimeo := 0 }
    snd_time := 0
    snd_toaddr := [0xfe80, 0, 0, 0, 0, 0, 0, 2]
    snd_buf := [128, 0, 0, 0]
    snd_buflen := 4
    snd_result := -EINTR
    semPosts := 0 }

/-- Every dispatcher invocation with a non-NULL private state either
defers (returning everything untouched) or performs the terminal
end_wait transition with one of the three resolution codes. -/
theorem sendto_eventhandler_cases (dev : NetDriver) (st : icmpv6_sendto_s)
    (fl now : Nat) :
    sendto_eventhandler dev (some st) fl now = (dev, some st, fl) ∨
    ∃ (d2 : NetDriver) (r : Int),
      (r = -ENETUNREACH ∨ r = OKK ∨ r = -ETIMEDOUT) ∧
      sendto_eventhandler dev (some st) fl now =
        (d2, some (end_wait { st with snd_result := r }), fl) := by
  simp only [sendto_eventhandler]
  split
  · right
    exact ⟨dev, -ENETUNREACH, Or.inl rfl, rfl⟩
  · split
    · right
      exact ⟨sendto_request dev st, OKK, Or.inr (Or.inl rfl), rfl⟩
    · split
      · by_cases hm : net_ipv6addr_maskcmp st.snd_toaddr dev.d_ipv6addr
            dev.d_ipv6netmask = true
        · right
          refine ⟨dev, -ETIMEDOUT, Or.inr (Or.inr rfl), ?_⟩
          simp [hm]
        · right
          refine ⟨dev, -ENETUNREACH, Or.inl rfl, ?_⟩
          simp [hm]
      · left
        rfl

/-- Every poll-loop step either leaves the per-call state untouched or
(only when the callback is still registered) performs the terminal
end_wait transition with one of the three resolution codes. -/
theorem devif_conn_event_cases (dev : NetDriver) (st : icmpv6_sendto_s)
    (fl now : Nat) :
    (devif_conn_event dev st fl now).2 = st ∨
    (st.snd_cb.eventSet = true ∧
      ∃ r : Int, (r = -ENETUNREACH ∨ r = OKK ∨ r = -ETIMEDOUT) ∧
        (devif_conn_event dev st fl now).2 =
          end_wait { st with snd_result := r }) := by
  unfold devif_conn_event
  split
  case isTrue h =>
    by_cases hp : st.snd_cb.privSet = true
    · rw [if_pos hp]
      rcases sendto_eventhandler_cases dev st fl now with heq | ⟨d2, r, hr, heq⟩
      · rw [heq]
        left
        rfl
      · rw [heq]
        right
        exact ⟨h.1, r, hr, rfl⟩
    · rw [if_neg hp]
      left
      rfl
  case isFalse h =>
    left
    rfl

/-- Invariant of the poll loop: starting from a state with no posts,
the state is either still exactly the initial one, or the callback has
been cleared and the semaphore posted exactly once. -/
theorem runEvents_inv (st0 : icmpv6_sendto_s) (h0 : st0.semPosts = 0) :
    ∀ (evs : List (Nat × Nat)) (dev : NetDriver) (st : icmpv6_sendto_s),
      (st = st0 ∨ (st.snd_cb = clearedCb ∧ st.semPosts = 1)) →
      ((runEvents evs dev st).2 = st0 ∨
        ((runEvents evs dev st).2.snd_cb = clearedCb ∧
          (runEvents evs dev st).2.semPosts = 1)) := by
  intro evs
  induction evs with
  | nil => intro dev st h; exact h
  | cons ev rest ih =>
      intro dev st h
      obtain ⟨fl, now⟩ := ev
      simp only [runEvents]
      apply ih
      rcases devif_conn_event_cases dev st fl now with heq | ⟨hev, r, _, heq⟩
      · rw [heq]; exact h
      · rcases h with rfl | ⟨hcb, _⟩
        · rw [heq]
          right
          exact ⟨rfl, by simp [end_wait, h0]⟩
        · exact absurd hev (by rw [hcb]; simp [clearedCb])

/-- C1: during one icmpv6_sendto call, however many poll cycles invoke
the dispatcher, the wake semaphore is posted at most once; when it is
posted the callback flags, priv and event fields have been cleared (so
no further handler invocation can occur), and when it has not been
posted the per-call state is untouched (nothing is posted while still
waiting). -/
theorem wake_exactly_once (evs : List (Nat × Nat)) (dev : NetDriver)
    (st : icmpv6_sendto_s) (h0 : st.semPosts = 0) :
    (runEvents evs dev st).2.semPosts ≤ 1 ∧
    ((runEvents evs dev st).2.semPosts = 1 →
      (runEvents evs dev st).2.snd_cb.flags = 0 ∧
      (runEvents evs dev st).2.snd_cb.privSet = false ∧
      (runEvents evs dev st).2.snd_cb.eventSet = false) ∧
    ((runEvents evs dev st).2.semPosts = 0 → (runEvents evs dev st).2 = st) := by
  rcases runEvents_inv st h0 evs dev st (Or.inl rfl) with heq | ⟨hcb, hsem⟩
  · refine ⟨by rw [heq, h0]; omega, ?_, fun _ => heq⟩
    intro h1
    rw [heq, h0] at h1
    exact absurd h1 one_ne_zero.symm
  · refine ⟨by omega, fun _ => by rw [hcb]; exact ⟨rfl, rfl, rfl⟩, ?_⟩
    intro hz
    rw [hz] at hsem
    exact absurd hsem.symm one_ne_zero

/-- C1 witness: a concrete run (one successful poll) satisfies the
hypothesis and the at-most-one-post bound. -/
theorem wake_exactly_once_witness :
    stA.semPosts = 0 ∧ (runEvents [(4, 0)] devA stA).2.semPosts ≤ 1 :=
  ⟨rfl, (wake_exactly_once [(4, 0)] devA stA rfl).1⟩

/-- C10: a dispatcher invocation with a NULL private-state pointer (as
after deregistration cleared priv) returns the input flags unchanged,
with no device or state modification and no semaphore post. -/
theorem stale_invocation_noop (dev : NetDriver) (flags now : Nat) :
    sendto_eventhandler dev none flags now = (dev, none, flags) := rfl

/-! ## Packet-builder and timeout claims -/

/-- Sample busy device: same as devA but with a pending transmission
occupying the buffer. -/
def devB : NetDriver := { devA with d_sndlen := 1 }

/-- Sample per-call state with a 50-tick send timeout configured. -/
def stB : icmpv6_sendto_s := { stA with snd_sock := some { s_sndtimeo := 50 } }

/-- C3 (amended): when the dispatcher runs while waiting with the
device-down flag absent, a free transmit buffer and no incoming
protocol data, it builds the packet and resolves with success: the
IPv6 header carries version byte 0x60, zero traffic-class and flow
fields, big-endian length equal to the payload length, the ICMPv6
protocol id, hop limit 255, the device source address and the request
destination address; the frame length is the IPv6 header length plus
the payload length, and the caller bytes follow the header verbatim
except the 16-bit checksum field (bytes 2 and 3), which is overwritten
with the stored checksum. -/
theorem dispatcher_builds_packet (dev : NetDriver) (st : icmpv6_sendto_s)
    (flags now : Nat)
    (hdown : flags &&& NETDEV_DOWN = 0)
    (hsnd : dev.d_sndlen ≤ 0)
    (hnew : flags &&& ICMPv6_NEWDATA = 0)
    (h4 : 4 ≤ st.snd_buflen)
    (hlen : st.snd_buflen ≤ st.snd_buf.length) :
    ∃ st2, sendto_eventhandler dev (some st) flags now =
        (sendto_request dev st, some st2, flags) ∧
      st2.snd_result = OKK ∧
      st2.semPosts = st.semPosts + 1 ∧
      (sendto_request dev st).ipv6hdr.vtc = 0x60 ∧
      (sendto_request dev st).ipv6hdr.tcf = 0 ∧
      (sendto_request dev st).ipv6hdr.flow = 0 ∧
      (sendto_request dev st).ipv6hdr.len0 * 256 +
        (sendto_request dev st).ipv6hdr.len1 = st.snd_buflen ∧
      (sendto_request dev st).ipv6hdr.proto = IP_PROTO_ICMP6 ∧
      (sendto_request dev st).ipv6hdr.ttl = 255 ∧
      (sendto_request dev st).ipv6hdr.srcipaddr = dev.d_ipv6addr ∧
      (sendto_request dev st).ipv6hdr.destipaddr = st.snd_toaddr ∧
      (sendto_request dev st).d_len = IPv6_HDRLEN + st.snd_buflen ∧
      ∃ x0 x1 x2 x3 r y2 y3,
        st.snd_buf.take st.snd_buflen = x0 :: x1 :: x2 :: x3 :: r ∧
        (sendto_request dev st).icmpRegion = x0 :: x1 :: y2 :: y3 :: r := by
  have hhandler : sendto_eventhandler dev (some st) flags now =
      (sendto_request dev st, some (end_wait { st with snd_result := OKK }), flags) := by
    simp only [sendto_eventhandler]
    rw [if_neg (by simp [hdown]), if_pos ⟨hsnd, hnew⟩]
  refine ⟨end_wait { st with snd_result := OKK }, hhandler, rfl, rfl, rfl, rfl, rfl,
    ?_, rfl, rfl, rfl, rfl, rfl, ?_⟩
  · show st.snd_buflen / 256 * 256 + st.snd_buflen % 256 = st.snd_buflen
    omega
  · have htl : 4 ≤ (st.snd_buf.take st.snd_buflen).length := by
      rw [List.length_take]
      omega
    rcases hb : st.snd_buf.take st.snd_buflen with _ | ⟨x0, _ | ⟨x1, _ | ⟨x2, _ | ⟨x3, r⟩⟩⟩⟩ <;>
      rw [hb] at htl <;> simp at htl
    simp only [sendto_request, hb, setChksum]
    exact ⟨x0, x1, x2, x3, r, _, _, rfl, rfl⟩

/-- C3 counterexample: the claim as stated (caller bytes copied
verbatim) is false, because the checksum field is overwritten; on a
concrete request the stored region differs from the caller bytes. -/
theorem dispatcher_verbatim_cex :
    (sendto_eventhandler devA (some stA) 4 0).1.icmpRegion ≠
      stA.snd_buf.take stA.snd_buflen := by decide

/-- C3 witness: the amended theorem applies to a concrete free-buffer
poll and yields the success resolution. -/
theorem dispatcher_builds_packet_witness :
    (4 : Nat) &&& NETDEV_DOWN = 0 ∧
    ∃ st2, sendto_eventhandler devA (some stA) 4 0 =
        (sendto_request devA stA, some st2, 4) ∧
      st2.snd_result = OKK := by
  obtain ⟨st2, h1, h2, _⟩ :=
    dispatcher_builds_packet devA stA 4 0 (by decide) (by decide) (by decide)
      (by decide) (by decide)
  exact ⟨by decide, st2, h1, h2⟩

/-- C4: the timeout branch of the dispatcher (reached while waiting
when the device-down flag is absent and the send branch is not taken):
with the disabled sentinel 0 configured it never resolves; with a
nonzero timeout it fires exactly when the elapsed ticks reach or
exceed it (inclusive), resolving with the timeout code when the
destination shares the device subnet under the netmask and with the
unreachable code otherwise. -/
theorem timeout_policy (dev : NetDriver) (st : icmpv6_sendto_s) (sock : Socket)
    (flags now : Nat)
    (hsock : st.snd_sock = some sock)
    (hdown : flags &&& NETDEV_DOWN = 0)
    (hbusy : ¬(dev.d_sndlen ≤ 0 ∧ flags &&& ICMPv6_NEWDATA = 0)) :
    (sock.s_sndtimeo = 0 →
      sendto_eventhandler dev (some st) flags now = (dev, some st, flags)) ∧
    (sock.s_sndtimeo ≠ 0 → sock.s_sndtimeo ≤ now - st.snd_time →
      sendto_eventhandler dev (some st) flags now =
        (dev, some (end_wait { st with snd_result :=
          (if net_ipv6addr_maskcmp st.snd_toaddr dev.d_ipv6addr dev.d_ipv6netmask
            then -ETIMEDOUT else -ENETUNREACH) }), flags)) ∧
    (sock.s_sndtimeo ≠ 0 → now - st.snd_time < sock.s_sndtimeo →
      sendto_eventhandler dev (some st) flags now = (dev, some st, flags)) := by
  refine ⟨?_, ?_, ?_⟩
  · intro h0
    simp only [sendto_eventhandler]
    rw [if_neg (by simp [hdown]), if_neg hbusy,
      if_neg (by simp [sendto_timeout, hsock, h0])]
  · intro hne helapsed
    simp only [sendto_eventhandler]
    rw [if_neg (by simp [hdown]), if_neg hbusy,
      if_pos (by simp [sendto_timeout, hsock, hne, net_timeo, helapsed])]
    cases hm : net_ipv6addr_maskcmp st.snd_toaddr dev.d_ipv6addr dev.d_ipv6netmask <;>
      simp [hm]
  · intro hne hearly
    simp only [sendto_eventhandler]
    rw [if_neg (by simp [hdown]), if_neg hbusy,
      if_neg (by simp [sendto_timeout, hsock, hne, net_timeo]; omega)]

/-- C4 witness: with a 50-tick timeout, a busy buffer and 50 elapsed
ticks to an on-subnet destination, the dispatcher resolves with the
timeout code. -/
theorem timeout_policy_witness :
    stB.snd_sock = some { s_sndtimeo := 50 } ∧
    sendto_eventhandler devB (some stB) 4 50 =
      (devB, some (end_wait { stB with snd_result := -ETIMEDOUT }), 4) := by
  obtain ⟨-, hfire, -⟩ :=
    timeout_policy devB stB { s_sndtimeo := 50 } 4 50 rfl (by decide) (by decide)
  have h := hfire (by decide) (by decide)
  rw [if_pos (by decide)] at h
  exact ⟨rfl, h⟩

/-! ## Checksum law -/

/-- Basic bound and congruence of one end-around-carry addition. -/
theorem ocAdd_bound_mod (a b : Nat) (ha : a < 65536) (hb : b < 65536) :
    ocAdd a b < 65536 ∧ ocAdd a b % 65535 = (a + b) % 65535 := by
  simp only [ocAdd]
  omega

/-- The end-around-carry fold stays below 2^16 and agrees with the
plain sum modulo 65535. -/
theorem foldl_ocAdd_bound_mod (ws : List Nat) :
    ∀ acc : Nat, (∀ w ∈ ws, w < 65536) → acc < 65536 →
      ws.foldl ocAdd acc < 65536 ∧
      ws.foldl ocAdd acc % 65535 = (acc + ws.sum) % 65535 := by
  induction ws with
  | nil => intro acc _ hacc; simpa using hacc
  | cons w rest ih =>
      intro acc hws hacc
      have hw : w < 65536 := hws w (by simp)
      obtain ⟨hb, hm⟩ := ocAdd_bound_mod acc w hacc hw
      obtain ⟨ihb, ihm⟩ := ih (ocAdd acc w) (fun x hx => hws x (by simp [hx])) hb
      refine ⟨ihb, ?_⟩
      rw [List.foldl_cons, ihm, List.sum_cons]
      omega

/-- The end-around-carry fold of a list with a positive total is
positive (a single end-around addition is zero only when both inputs
are zero). -/
theorem foldl_ocAdd_pos (ws : List Nat) :
    ∀ acc : Nat, 0 < acc + ws.sum → 0 < ws.foldl ocAdd acc := by
  induction ws with
  | nil => intro acc h; simpa using h
  | cons w rest ih =>
      intro acc h
      rw [List.foldl_cons]
      apply ih
      have hz : ocAdd acc w = 0 ↔ acc + w = 0 := by simp only [ocAdd]; omega
      rw [List.sum_cons] at h
      omega

/-- Words produced from a byte list are 16-bit values. -/
theorem chkWords_bytes : ∀ l : List Nat, (∀ b ∈ l, b < 256) →
    ∀ w ∈ chkWords l, w < 65536
  | [], _ => by simp [chkWords]
  | [b], h => by
      have := h b (by simp)
      simp [chkWords]
      omega
  | b0 :: b1 :: rest, h => by
      have h0 := h b0 (by simp)
      have h1 := h b1 (by simp)
      intro w hw
      rw [chkWords] at hw
      rcases List.mem_cons.mp hw with rfl | hw2
      · omega
      · exact chkWords_bytes rest (fun b hb => h b (by simp [hb])) w hw2

/-- Sum of the words of a 4-byte-or-longer region with a 16-bit value
in the checksum field, versus the same region with the field zeroed. -/
theorem chkWords_sum_set (x0 x1 : Nat) (r : List Nat) (v : Nat) :
    (chkWords (x0 :: x1 :: v / 256 :: v % 256 :: r)).sum
      = (chkWords (x0 :: x1 :: 0 :: 0 :: r)).sum + v := by
  simp only [chkWords, List.sum_cons]
  omega

/-- C5: for every packet built by the packet builder, the
ones-complement checksum over the stored transport header (checksum
field included) and payload is the all-ones value 65535 — the
ones-complement representation of zero, so the complemented sum is
zero — the stored checksum field is never the literal zero, and when
the complemented checksum computed over the zero-field region is zero
the stored field is the all-ones sentinel 0xffff. -/
theorem checksum_law (dev : NetDriver) (st : icmpv6_sendto_s)
    (h4 : 4 ≤ st.snd_buflen)
    (hlen : st.snd_buflen ≤ st.snd_buf.length)
    (hbytes : ∀ b ∈ st.snd_buf, b < 256) :
    icmpv6_chksum (sendto_request dev st).icmpRegion = 0xffff ∧
    chksumField (sendto_request dev st).icmpRegion ≠ 0 ∧
    (complement16 (icmpv6_chksum (setChksum (st.snd_buf.take st.snd_buflen) 0)) = 0 →
      chksumField (sendto_request dev st).icmpRegion = 0xffff) := by
  have htl : 4 ≤ (st.snd_buf.take st.snd_buflen).length := by
    rw [List.length_take]
    omega
  rcases hb : st.snd_buf.take st.snd_buflen with _ | ⟨x0, _ | ⟨x1, _ | ⟨x2, _ | ⟨x3, r⟩⟩⟩⟩ <;>
    rw [hb] at htl <;> simp at htl
  have hmem : ∀ b ∈ x0 :: x1 :: x2 :: x3 :: r, b < 256 := by
    intro b hbmem
    exact hbytes b (List.take_subset _ _ (hb ▸ hbmem))
  have hx0 : x0 < 256 := hmem x0 (by simp)
  have hx1 : x1 < 256 := hmem x1 (by simp)
  have hr : ∀ b ∈ r, b < 256 := fun b hbr => hmem b (by simp [hbr])
  -- the zero-field region and its checksum
  set rz : List Nat := x0 :: x1 :: 0 :: 0 :: r with hrz
  have hrzwords : ∀ w ∈ chkWords rz, w < 65536 := by
    apply chkWords_bytes
    intro b hbm
    rw [hrz] at hbm
    simp only [List.mem_cons] at hbm
    rcases hbm with rfl | rfl | rfl | rfl | hbm
    · exact hx0
    · exact hx1
    · omega
    · omega
    · exact hr b hbm
  obtain ⟨hSb, hSm⟩ := foldl_ocAdd_bound_mod (chkWords rz) 0 hrzwords (by omega)
  set S : Nat := icmpv6_chksum rz with hS
  have hSb2 : S < 65536 := hSb
  have hSm2 : S % 65535 = (chkWords rz).sum % 65535 := by
    rw [hS, icmpv6_chksum]
    omega
  -- the stored checksum value
  set c1 : Nat := if complement16 S = 0 then 0xffff else complement16 S with hc1
  have hc1pos : 0 < c1 ∧ c1 ≤ 65535 := by
    rw [hc1]
    simp only [complement16]
    split <;> omega
  have hcongr : (S + c1) % 65535 = 0 := by
    rw [hc1]
    simp only [complement16]
    split <;> omega
  -- the stored region
  have hregion : (sendto_request dev st).icmpRegion =
      x0 :: x1 :: c1 / 256 :: c1 % 256 :: r := by
    simp only [sendto_request, hb, setChksum]
  have hfield : chksumField (sendto_request dev st).icmpRegion = c1 := by
    rw [hregion]
    simp [chksumField]
    omega
  -- words of the stored region
  have hswords : ∀ w ∈ chkWords (x0 :: x1 :: c1 / 256 :: c1 % 256 :: r), w < 65536 := by
    apply chkWords_bytes
    intro b hbm
    simp only [List.mem_cons] at hbm
    rcases hbm with rfl | rfl | rfl | rfl | hbm
    · exact hx0
    · exact hx1
    · omega
    · omega
    · exact hr b hbm
  obtain ⟨hTb, hTm⟩ :=
    foldl_ocAdd_bound_mod (chkWords (x0 :: x1 :: c1 / 256 :: c1 % 256 :: r)) 0 hswords
      (by omega)
  have hsum : (chkWords (x0 :: x1 :: c1 / 256 :: c1 % 256 :: r)).sum
      = (chkWords rz).sum + c1 := chkWords_sum_set x0 x1 r c1
  have hTpos : 0 < icmpv6_chksum (x0 :: x1 :: c1 / 256 :: c1 % 256 :: r) := by
    rw [icmpv6_chksum]
    apply foldl_ocAdd_pos
    rw [hsum]
    omega
  have hT : icmpv6_chksum (x0 :: x1 :: c1 / 256 :: c1 % 256 :: r) = 65535 := by
    have hm : icmpv6_chksum (x0 :: x1 :: c1 / 256 :: c1 % 256 :: r) % 65535 = 0 := by
      rw [icmpv6_chksum, hTm, hsum]
      omega
    rw [icmpv6_chksum] at hTpos ⊢
    omega
  refine ⟨by rw [hregion]; exact hT, by rw [hfield]; omega, ?_⟩
  intro hzero
  rw [setChksum] at hzero
  norm_num at hzero
  rw [← hrz, ← hS] at hzero
  rw [hfield, hc1]
  simp [hzero]

/-- C5 witness: on a concrete 4-byte echo header the stored checksum
region sums (ones-complement) to the all-ones value and the field is
nonzero. -/
theorem checksum_law_witness :
    4 ≤ stA.snd_buflen ∧
    icmpv6_chksum (sendto_request devA stA).icmpRegion = 0xffff ∧
    chksumField (sendto_request devA stA).icmpRegion ≠ 0 := by
  obtain ⟨h1, h2, -⟩ := checksum_law devA stA (by decide) (by decide) (by decide)
  exact ⟨by decide, h1, h2⟩

/-! ## Orchestrator claims -/

/-- Sample empty socket with no send timeout configured. -/
def sock0 : Socket := { s_sndtimeo := 0 }

/-- Sample connection with a live session and one queued reply byte. -/
def connB : icmpv6_conn_s :=
  { id := 5, nreqs := 1, dev := some 3, readahead := [9], flushes := 0 }

/-- Sample destination address (same subnet as devA). -/
def addrB : List Nat := [0xfe80, 0, 0, 0, 0, 0, 0, 2]

/-- Sample echo-request buffer: type 128, code 0, zero checksum,
identifier 7, sequence number 0. -/
def bufEcho : List Nat := [128, 0, 0, 0, 0, 7, 0, 0]

/-- Oracle for a call whose route lookup fails. -/
def oracleNone : Oracle :=
  { devFound := none, neighborOk := true, cbAllocOk := true,
    startTime := 0, events := [] }

/-- Oracle for a call that succeeds on the first poll. -/
def oracleA : Oracle :=
  { devFound := some devA, neighborOk := true, cbAllocOk := true,
    startTime := 0, events := [(4, 0)] }

/-- Oracle for a call woken by a signal before any dispatcher action. -/
def oracleEmpty : Oracle :=
  { devFound := some devA, neighborOk := true, cbAllocOk := true,
    startTime := 0, events := [] }

/-- Reconciliation never loses flush counts. -/
theorem sendto_reconcile_flushes_ge (conn : icmpv6_conn_s) (buf : List Nat)
    (dev : NetDriver) : conn.flushes ≤ (sendto_reconcile conn buf dev).flushes := by
  unfold sendto_reconcile
  split
  · simp [iob_free_queue]
  · exact le_refl _

/-- Session recording preserves the queue and flush count. -/
theorem sendto_record_session_queue (conn : icmpv6_conn_s) (buf : List Nat)
    (dev : NetDriver) :
    (sendto_record_session conn buf dev).readahead = conn.readahead ∧
    (sendto_record_session conn buf dev).flushes = conn.flushes := by
  unfold sendto_record_session
  split <;> exact ⟨rfl, rfl⟩

/-- Any predicate holding of the initial result value and of the three
resolution codes holds of the result after any poll-loop run. -/
theorem runEvents_result (S : Int → Prop) (evs : List (Nat × Nat)) :
    ∀ (dev : NetDriver) (st : icmpv6_sendto_s),
      S st.snd_result → S (-ENETUNREACH) → S OKK → S (-ETIMEDOUT) →
      S ((runEvents evs dev st).2.snd_result) := by
  induction evs with
  | nil => intro dev st h0 _ _ _; exact h0
  | cons ev rest ih =>
      intro dev st h0 h1 h2 h3
      obtain ⟨fl, now⟩ := ev
      simp only [runEvents]
      rcases devif_conn_event_cases dev st fl now with heq | ⟨-, r, hr, heq⟩
      · rw [heq]
        exact ih _ _ h0 h1 h2 h3
      · rw [heq]
        apply ih
        · show S r
          rcases hr with rfl | rfl | rfl
          · exact h1
          · exact h2
          · exact h3
        · exact h1
        · exact h2
        · exact h3

/-- C2: with a payload of at least the minimum header size and a
resolvable device, icmpv6_sendto returns either exactly the caller
length (which is positive, hence never zero) or a negative code, never
a mismatched positive value. -/
theorem sendto_ret_len_or_negative (psock : Socket) (conn : icmpv6_conn_s)
    (buf : List Nat) (len : Nat) (toAddr : List Nat) (tolen : Nat)
    (o : Oracle) (dv : NetDriver)
    (hlen : ICMPv6_HDRLEN ≤ len)
    (hdev : o.devFound = some dv) :
    ((icmpv6_sendto psock conn buf len toAddr tolen o).ret = (len : Int) ∧
      0 < (icmpv6_sendto psock conn buf len toAddr tolen o).ret) ∨
    (icmpv6_sendto psock conn buf len toAddr tolen o).ret < 0 := by
  have hpos : (0 : Int) < (len : Int) := by
    have h4 : (4 : Int) ≤ (len : Int) := by exact_mod_cast hlen
    omega
  simp only [icmpv6_sendto, hdev]
  split_ifs <;>
    first
      | exact Or.inl ⟨rfl, hpos⟩
      | exact Or.inr (by assumption)
      | exact Or.inr (show -EINVAL < 0 by decide)
      | exact Or.inr (show -ENETUNREACH < 0 by decide)

/-- C2 witness: a concrete successful call returns the payload
length 8. -/
theorem sendto_ret_len_or_negative_witness :
    ICMPv6_HDRLEN ≤ 8 ∧
    (((icmpv6_sendto sock0 connB bufEcho 8 addrB 28 oracleA).ret = (8 : Int) ∧
       0 < (icmpv6_sendto sock0 connB bufEcho 8 addrB 28 oracleA).ret) ∨
      (icmpv6_sendto sock0 connB bufEcho 8 addrB 28 oracleA).ret < 0) :=
  ⟨by decide,
    sendto_ret_len_or_negative sock0 connB bufEcho 8 addrB 28 oracleA devA
      (by decide) rfl⟩

/-- C7 counterexample: a call rejected by argument validation returns
a negative value but leaves the session and read-ahead queue entirely
untouched, contradicting the claim that every negative return resets
and flushes. -/
theorem failure_reset_cex :
    (icmpv6_sendto sock0 connB bufEcho 0 addrB 28 oracleNone).ret < 0 ∧
    (icmpv6_sendto sock0 connB bufEcho 0 addrB 28 oracleNone).conn = connB ∧
    (icmpv6_sendto sock0 connB bufEcho 0 addrB 28 oracleNone).conn.id ≠ 0 := by
  decide

/-- C7 (amended): on every failure path after argument validation has
passed (payload and address length acceptable), a negative return
implies the session was reset to empty and the read-ahead queue
flushed before returning. -/
theorem failure_resets_session (psock : Socket) (conn : icmpv6_conn_s)
    (buf : List Nat) (len : Nat) (toAddr : List Nat) (tolen : Nat) (o : Oracle)
    (hlen : ICMPv6_HDRLEN ≤ len)
    (htolen : SIZEOF_SOCKADDR_IN6 ≤ tolen)
    (hneg : (icmpv6_sendto psock conn buf len toAddr tolen o).ret < 0) :
    (icmpv6_sendto psock conn buf len toAddr tolen o).conn.id = 0 ∧
    (icmpv6_sendto psock conn buf len toAddr tolen o).conn.nreqs = 0 ∧
    (icmpv6_sendto psock conn buf len toAddr tolen o).conn.dev = none ∧
    (icmpv6_sendto psock conn buf len toAddr tolen o).conn.readahead = [] ∧
    conn.flushes < (icmpv6_sendto psock conn buf len toAddr tolen o).conn.flushes := by
  have hpos : (0 : Int) ≤ (len : Int) := Int.natCast_nonneg len
  rcases hdev : o.devFound with - | dv
  · revert hneg
    simp only [icmpv6_sendto, hdev]
    rw [if_neg (by omega)]
    intro _
    exact ⟨rfl, rfl, rfl, rfl, show conn.flushes < conn.flushes + 1 by omega⟩
  · have hrec := sendto_reconcile_flushes_ge conn buf dv
    have hrecq := sendto_record_session_queue (sendto_reconcile conn buf dv) buf dv
    revert hneg
    simp only [icmpv6_sendto, hdev]
    rw [if_neg (by omega)]
    split_ifs <;> intro hneg <;>
      first
        | exact absurd hneg (show ¬((len : Int) < 0) by omega)
        | exact ⟨rfl, rfl, rfl, rfl,
            show conn.flushes < (sendto_reconcile conn buf dv).flushes + 1 by omega⟩
        | exact ⟨rfl, rfl, rfl, rfl,
            show conn.flushes <
                (sendto_record_session (sendto_reconcile conn buf dv) buf dv).flushes + 1 by
              have h2 := hrecq.2
              omega⟩

/-- C7 witness: a concrete call with no resolvable device returns a
negative code and resets and flushes the session. -/
theorem failure_resets_session_witness :
    (icmpv6_sendto sock0 connB bufEcho 4 addrB 28 oracleNone).ret < 0 ∧
    ((icmpv6_sendto sock0 connB bufEcho 4 addrB 28 oracleNone).conn.id = 0 ∧
     (icmpv6_sendto sock0 connB bufEcho 4 addrB 28 oracleNone).conn.nreqs = 0 ∧
     (icmpv6_sendto sock0 connB bufEcho 4 addrB 28 oracleNone).conn.dev = none ∧
     (icmpv6_sendto sock0 connB bufEcho 4 addrB 28 oracleNone).conn.readahead = [] ∧
     connB.flushes <
       (icmpv6_sendto sock0 connB bufEcho 4 addrB 28 oracleNone).conn.flushes) :=
  ⟨by decide,
    failure_resets_session sock0 connB bufEcho 4 addrB 28 oracleNone
      (by decide) (by decide) (by decide)⟩

/-- C8: when the callback was allocated (result pre-seeded to the
interrupted sentinel) and the poll loop performs no terminal
transition before the thread is woken, icmpv6_sendto returns the
interrupted code, never the payload length. -/
theorem premature_wake_eintr (psock : Socket) (conn : icmpv6_conn_s)
    (buf : List Nat) (len : Nat) (toAddr : List Nat) (tolen : Nat)
    (o : Oracle) (dv : NetDriver)
    (hlen : ICMPv6_HDRLEN ≤ len)
    (htolen : SIZEOF_SOCKADDR_IN6 ≤ tolen)
    (hdev : o.devFound = some dv)
    (hnei : o.neighborOk = true)
    (halloc : o.cbAllocOk = true)
    (hnowake : (runEvents o.events dv
        (sendto_state1 psock buf toAddr len o)).2.semPosts = 0) :
    (icmpv6_sendto psock conn buf len toAddr tolen o).ret = -EINTR := by
  have hst : (runEvents o.events dv (sendto_state1 psock buf toAddr len o)).2 =
      sendto_state1 psock buf toAddr len o := by
    rcases runEvents_inv (sendto_state1 psock buf toAddr len o) rfl o.events dv
        (sendto_state1 psock buf toAddr len o) (Or.inl rfl) with h | ⟨-, h1⟩
    · exact h
    · rw [hnowake] at h1
      exact absurd h1 (by decide)
  simp only [icmpv6_sendto, hdev]
  rw [if_neg (by omega), if_neg (by simp [hnei]), if_pos halloc, hst]
  have hc : ((sendto_state1 psock buf toAddr len o,
      sendto_record_session (sendto_reconcile conn buf dv) buf dv)).1.snd_result < 0 := by
    show (-EINTR : Int) < 0
    decide
  rw [if_pos hc]
  rfl

/-- C8 witness: a concrete call with an empty poll sequence (a pure
signal wake) returns the interrupted code. -/
theorem premature_wake_eintr_witness :
    (runEvents oracleEmpty.events devA
        (sendto_state1 sock0 bufEcho addrB 8 oracleEmpty)).2.semPosts = 0 ∧
    (icmpv6_sendto sock0 connB bufEcho 8 addrB 28 oracleEmpty).ret = -EINTR :=
  ⟨by decide,
    premature_wake_eintr sock0 connB bufEcho 8 addrB 28 oracleEmpty devA
      (by decide) (by decide) rfl rfl rfl (by decide)⟩

/-- C9 counterexample: the claim ties the invalid-argument return to
the address length differing from the structure size, but the code
only rejects lengths below it; an oversized address length does not
produce the invalid-argument code. -/
theorem einval_iff_cex :
    ¬(((icmpv6_sendto sock0 connB bufEcho 8 addrB 29 oracleNone).ret = -EINVAL) ↔
      (8 < ICMPv6_HDRLEN ∨ 29 ≠ SIZEOF_SOCKADDR_IN6)) := by
  decide

/-- C9 (amended): icmpv6_sendto returns the invalid-argument code
exactly when the payload length is below the minimum ICMPv6 header
size or the supplied address length is below the sockaddr_in6
structure size; whenever both preconditions hold the validation check
passes. -/
theorem einval_iff (psock : Socket) (conn : icmpv6_conn_s) (buf : List Nat)
    (len : Nat) (toAddr : List Nat) (tolen : Nat) (o : Oracle) :
    (icmpv6_sendto psock conn buf len toAddr tolen o).ret = -EINVAL ↔
      (len < ICMPv6_HDRLEN ∨ tolen < SIZEOF_SOCKADDR_IN6) := by
  have hpos : (0 : Int) ≤ (len : Int) := Int.natCast_nonneg len
  constructor
  · intro h
    by_contra hargs
    revert h
    rcases hdev : o.devFound with - | dv
    · simp only [icmpv6_sendto, hdev]
      rw [if_neg hargs]
      intro h
      exact absurd h (show ¬(-ENETUNREACH = -EINVAL) by decide)
    · have hne : (runEvents o.events dv
          (sendto_state1 psock buf toAddr len o)).2.snd_result ≠ -EINVAL :=
        runEvents_result (fun x => x ≠ -EINVAL) o.events dv
          (sendto_state1 psock buf toAddr len o)
          (show (-EINTR : Int) ≠ -EINVAL by decide)
          (by decide) (by decide) (by decide)
      simp only [icmpv6_sendto, hdev]
      rw [if_neg hargs]
      split_ifs <;> intro h <;>
        first
          | exact absurd h (show ¬(-ENETUNREACH = -EINVAL) by decide)
          | exact absurd h (show ¬(-ENOMEM = -EINVAL) by decide)
          | exact hne h
          | exact absurd h (show ¬((len : Int) = -EINVAL) by
              rw [show EINVAL = (22 : Int) from rfl]
              omega)
  · intro h
    simp only [icmpv6_sendto]
    rw [if_pos h]

/-- C6: session reconciliation under a successful call: an unchanged
(echo, id, device) triple leaves the read-ahead queue untouched; any
mismatch flushes it exactly once and leaves it empty; an echo request
stores its identifier and sets the in-flight count to the fixed value
one; a non-echo request leaves the reset identifier and count; and the
target device is recorded regardless of request kind. -/
theorem session_reconciliation (psock : Socket) (conn : icmpv6_conn_s)
    (buf : List Nat) (len : Nat) (toAddr : List Nat) (tolen : Nat)
    (o : Oracle) (dv : NetDriver)
    (hlen : ICMPv6_HDRLEN ≤ len)
    (htolen : SIZEOF_SOCKADDR_IN6 ≤ tolen)
    (hdev : o.devFound = some dv)
    (hnei : o.neighborOk = true)
    (halloc : o.cbAllocOk = true)
    (hres : 0 ≤ (runEvents o.events dv
        (sendto_state1 psock buf toAddr len o)).2.snd_result) :
    (¬(echoType buf ≠ ICMPv6_ECHO_REQUEST ∨ echoId buf ≠ conn.id ∨
        some dv.devId ≠ conn.dev) →
      (icmpv6_sendto psock conn buf len toAddr tolen o).conn.readahead =
        conn.readahead ∧
      (icmpv6_sendto psock conn buf len toAddr tolen o).conn.flushes =
        conn.flushes) ∧
    ((echoType buf ≠ ICMPv6_ECHO_REQUEST ∨ echoId buf ≠ conn.id ∨
        some dv.devId ≠ conn.dev) →
      (icmpv6_sendto psock conn buf len toAddr tolen o).conn.readahead = [] ∧
      (icmpv6_sendto psock conn buf len toAddr tolen o).conn.flushes =
        conn.flushes + 1) ∧
    (echoType buf = ICMPv6_ECHO_REQUEST →
      (icmpv6_sendto psock conn buf len toAddr tolen o).conn.id = echoId buf ∧
      (icmpv6_sendto psock conn buf len toAddr tolen o).conn.nreqs = 1) ∧
    (echoType buf ≠ ICMPv6_ECHO_REQUEST →
      (icmpv6_sendto psock conn buf len toAddr tolen o).conn.id = 0 ∧
      (icmpv6_sendto psock conn buf len toAddr tolen o).conn.nreqs = 0) ∧
    (icmpv6_sendto psock conn buf len toAddr tolen o).conn.dev = some dv.devId := by
  have hout : icmpv6_sendto psock conn buf len toAddr tolen o =
      { ret := (len : Int),
        conn := sendto_record_session (sendto_reconcile conn buf dv) buf dv } := by
    simp only [icmpv6_sendto, hdev]
    rw [if_neg (by omega), if_neg (by simp [hnei]), if_pos halloc,
      if_neg (show ¬((runEvents o.events dv
        (sendto_state1 psock buf toAddr len o)).2.snd_result < 0) by omega)]
  rw [hout]
  simp only [sendto_record_session, sendto_reconcile]
  refine ⟨?_, ?_, ?_, ?_, ?_⟩
  · intro hnm
    rw [if_neg hnm]
    split <;> exact ⟨rfl, rfl⟩
  · intro hm
    rw [if_pos hm]
    split <;> exact ⟨rfl, rfl⟩
  · intro ht
    rw [if_pos ht]
    exact ⟨rfl, rfl⟩
  · intro ht
    rw [if_neg ht, if_pos (Or.inl ht)]
    exact ⟨rfl, rfl⟩
  · trivial

/-- C6 witness: a concrete successful call with a changed identifier
flushes once, stores the new identifier and records the device. -/
theorem session_reconciliation_witness :
    0 ≤ (runEvents oracleA.events devA
        (sendto_state1 sock0 bufEcho addrB 8 oracleA)).2.snd_result ∧
    (icmpv6_sendto sock0 connB bufEcho 8 addrB 28 oracleA).conn.flushes =
      connB.flushes + 1 ∧
    (icmpv6_sendto sock0 connB bufEcho 8 addrB 28 oracleA).conn.id =
      echoId bufEcho ∧
    (icmpv6_sendto sock0 connB bufEcho 8 addrB 28 oracleA).conn.dev =
      some devA.devId := by
  obtain ⟨-, h2, h3, -, h5⟩ :=
    session_reconciliation sock0 connB bufEcho 8 addrB 28 oracleA devA
      (by decide) (by decide) rfl rfl rfl (by decide)
  exact ⟨by decide, (h2 (by decide)).2, (h3 (by decide)).1, h5⟩

end NuttxIcmpv6
